import Mathlib

/-!
# midi2wav — verification of the offline MIDI-to-WAV rendering core

A shallow embedding of the rendering and encoding core of `src/App.tsx`
(the `processMidiWithSoundfont` and `audioBufferToWav` functions), together
with theorems checking the natural-language specification against it.

Modelling conventions:

* Float samples and times are modelled as `ℚ`; the operations the code
  performs on them (clamp, multiply by an integer constant, compare, add,
  `Math.ceil`) are exact on the values at hand, so `ℚ` is faithful.
* `DataView` byte writes are modelled as pointwise updates of a function
  `ℕ → ℕ` (byte index to byte value), starting from the zero-initialized
  `ArrayBuffer`.  `setUint32`/`setUint16`/`setInt16` in little-endian mode
  become lists of (index, byte) writes with the usual modular reduction.
* The inline `AudioWorkletProcessor` of App.tsx (lines 87-93) has a
  `process` method whose body is just `return true`: it never writes to
  its output channels and installs no message handler, so every posted
  `noteOn`/`noteOff`/`loadSoundfont` message is dropped.  The
  `OfflineAudioContext` therefore renders the zero-initialized output of
  that single node: the rendered buffer is silence.
* Constructing an `OfflineAudioContext` with `length = 0` fails on the
  platform (the Web Audio spec requires a nonzero length, surfaced as a
  `NotSupportedError` DOMException); this is the only failure point of the
  render path and is modelled as an `Except.error "NotSupportedError"`.
-/

/-- A note of the decoded MIDI timeline, as used by App.tsx: `note.midi`
(pitch), `note.velocity`, `note.time` (start, seconds), `note.duration`
(seconds). -/
structure Note where
  midi : ℕ
  velocity : ℚ
  time : ℚ
  duration : ℚ
deriving DecidableEq

/-- A track: an ordered list of notes, as iterated by `track.notes.forEach`. -/
structure Track where
  notes : List Note
deriving DecidableEq

/-- The decoded MIDI timeline: an ordered list of tracks, as iterated by
`midi.tracks.forEach`. -/
structure Midi where
  tracks : List Track
deriving DecidableEq

/-- Modelled from the spec: `midi.duration` is a getter of the external
`@tonejs/midi` dependency (not part of this repository's sources); per the
spec's timeline invariant it is the maximum over the track's events of
`startTime + duration`, `0` for an empty track. -/
def Track.duration (t : Track) : ℚ :=
  (t.notes.map fun n => n.time + n.duration).foldr max 0

/-- Modelled from the spec: `midi.duration` of the external `@tonejs/midi`
dependency — the maximum of the track durations, `0` when there are none. -/
def Midi.duration (m : Midi) : ℚ :=
  (m.tracks.map Track.duration).foldr max 0

/-- All note events of the timeline, flattened in track/insertion order. -/
def Midi.events (m : Midi) : List Note :=
  m.tracks.flatMap Track.notes

/-- The messages App.tsx posts to the worklet's `MessagePort`. -/
inductive Msg where
  | loadSoundfont (data : List ℕ)
  | noteOn (note : ℕ) (velocity : ℚ) (time : ℚ)
  | noteOff (note : ℕ) (time : ℚ)
deriving DecidableEq

/-- The event-scheduling loop of `processMidiWithSoundfont` (App.tsx lines
107-126): for each track in order, for each note in order, post a `noteOn`
(with the note's pitch, velocity and start time) followed by a `noteOff`
(at start time + duration).  No sorting and no validation is performed. -/
def scheduleMessages (m : Midi) : List Msg :=
  m.tracks.flatMap fun track =>
    track.notes.flatMap fun note =>
      [Msg.noteOn note.midi note.velocity note.time,
       Msg.noteOff note.midi (note.time + note.duration)]

/-- `Math.ceil(midi.duration * ctx.sampleRate)` (App.tsx line 80): the frame
length of the `OfflineAudioContext`. -/
def totalFrames (m : Midi) (sampleRate : ℕ) : ℕ :=
  (⌈m.duration * (sampleRate : ℚ)⌉).toNat

namespace SoundfontProcessor

/-- The `process` method of the inline `SoundfontProcessor` worklet
(App.tsx lines 88-91): its body is `return true` — it reads the posted
messages not at all (the class installs no `port.onmessage` handler) and
leaves its output channels exactly as it received them. -/
def process (msgs : List Msg) (inputs outputs : List (List ℚ)) :
    List (List ℚ) × Bool :=
  (outputs, true)

end SoundfontProcessor

/-- The `AudioBuffer` handed to `audioBufferToWav`: a sample rate, a channel
count, a frame length, and per-channel float sample arrays. -/
structure AudioBuffer where
  sampleRate : ℕ
  numberOfChannels : ℕ
  length : ℕ
  channelData : List (List ℚ)

/-- `buffer.getChannelData(i)`. -/
def AudioBuffer.getChannelData (b : AudioBuffer) (i : ℕ) : List ℚ :=
  b.channelData.getD i []

/-- The buffer produced by `offlineCtx.startRendering()` (App.tsx line 131):
the context is constructed with 2 channels and `frames` length; its only
node is the worklet, whose `process` leaves the zero-initialized render
quanta untouched, so each of the 2 channels is `frames` zero samples. -/
def renderedBuffer (msgs : List Msg) (frames sampleRate : ℕ) : AudioBuffer :=
  { sampleRate := sampleRate
    numberOfChannels := 2
    length := frames
    channelData :=
      (SoundfontProcessor.process msgs []
        (List.replicate 2 (List.replicate frames 0))).1 }

/-- `Math.max(-1, Math.min(1, x))` (App.tsx line 171). -/
def clampSample (s : ℚ) : ℚ := max (-1) (min 1 s)

/-- JavaScript `ToInteger` truncation toward zero, as applied by
`DataView.setInt16` to a non-integral argument. -/
def ratTrunc (q : ℚ) : ℤ := if q < 0 then ⌈q⌉ else ⌊q⌋

/-- The per-sample quantization of App.tsx lines 171-172: clamp to `[-1,1]`,
then scale negatives by `0x8000 = 32768` and non-negatives by
`0x7FFF = 32767`, truncating to an integer. -/
def quantizeSample (s0 : ℚ) : ℤ :=
  let sample := clampSample s0
  if sample < 0 then ratTrunc (sample * 32768) else ratTrunc (sample * 32767)

/-- One `DataView.setUint8`-style byte store: pointwise update of the byte
array at index `i`. -/
def setByte (v : ℕ → ℕ) (i b : ℕ) : ℕ → ℕ :=
  fun j => if j = i then b else v j

/-- Apply a list of (index, byte) stores left to right (later stores win). -/
def applyWrites (v : ℕ → ℕ) : List (ℕ × ℕ) → ℕ → ℕ
  | [] => v
  | w :: ws => applyWrites (setByte v w.1 w.2) ws

/-- `view.setUint32(o, x, true)`: the four little-endian byte stores of
`x mod 2^32`. -/
def uint32LEwrites (o x : ℕ) : List (ℕ × ℕ) :=
  [(o, x % 256), (o + 1, x / 256 % 256),
   (o + 2, x / 65536 % 256), (o + 3, x / 16777216 % 256)]

/-- `view.setUint16(o, x, true)`: the two little-endian byte stores of
`x mod 2^16`. -/
def uint16LEwrites (o x : ℕ) : List (ℕ × ℕ) :=
  [(o, x % 256), (o + 1, x / 256 % 256)]

/-- `view.setInt16(o, q, true)`: two's-complement wrap of `q` to 16 bits,
stored as two little-endian bytes. -/
def int16LEwrites (o : ℕ) (q : ℤ) : List (ℕ × ℕ) :=
  [(o, (q % 65536).toNat % 256), (o + 1, (q % 65536).toNat / 256 % 256)]

/-- `buffer.length * numberOfChannels * 2` (App.tsx line 140): the byte
length of the PCM data region. -/
def dataLen (b : AudioBuffer) : ℕ :=
  b.length * b.numberOfChannels * 2

/-- The header stores of `audioBufferToWav` (App.tsx lines 151-163), in
program order: `writeString(0,'RIFF')`, `setUint32(4, 36+length)`,
`writeString(8,'WAVE')`, `writeString(12,'fmt ')`, `setUint32(16,16)`,
`setUint16(20,1)`, `setUint16(22,numberOfChannels)`,
`setUint32(24,sampleRate)`, `setUint32(28,sampleRate*numberOfChannels*2)`,
`setUint16(32,numberOfChannels*2)`, `setUint16(34,16)`,
`writeString(36,'data')`, `setUint32(40,length)`. -/
def headerWrites (b : AudioBuffer) : List (ℕ × ℕ) :=
  [(0, 82), (1, 73), (2, 70), (3, 70)] ++
  uint32LEwrites 4 (36 + dataLen b) ++
  [(8, 87), (9, 65), (10, 86), (11, 69)] ++
  [(12, 102), (13, 109), (14, 116), (15, 32)] ++
  uint32LEwrites 16 16 ++
  uint16LEwrites 20 1 ++
  uint16LEwrites 22 b.numberOfChannels ++
  uint32LEwrites 24 b.sampleRate ++
  uint32LEwrites 28 (b.sampleRate * b.numberOfChannels * 2) ++
  uint16LEwrites 32 (b.numberOfChannels * 2) ++
  uint16LEwrites 34 16 ++
  [(36, 100), (37, 97), (38, 116), (39, 97)] ++
  uint32LEwrites 40 (dataLen b)

/-- The sample stores of `audioBufferToWav` (App.tsx lines 166-174), in
program order: for each channel `i`, for each frame `j` of that channel's
data, quantize the sample and store it as a little-endian signed 16-bit
value at `44 + (j * numberOfChannels + i) * 2`. -/
def dataWrites (b : AudioBuffer) : List (ℕ × ℕ) :=
  (List.range b.numberOfChannels).flatMap fun i =>
    (List.range (b.getChannelData i).length).flatMap fun j =>
      int16LEwrites (44 + (j * b.numberOfChannels + i) * 2)
        (quantizeSample ((b.getChannelData i).getD j 0))

/-- The byte content of the `ArrayBuffer` built by `audioBufferToWav`:
zero-initialized, then the header stores, then the sample stores. -/
def wavView (b : AudioBuffer) : ℕ → ℕ :=
  applyWrites (fun _ => 0) (headerWrites b ++ dataWrites b)

/-- The byte size of the `ArrayBuffer`: `44 + length` (App.tsx line 141). -/
def wavSize (b : AudioBuffer) : ℕ := 44 + dataLen b

/-- The encoded WAV blob: its byte content and byte size. -/
structure Wav where
  view : ℕ → ℕ
  size : ℕ

/-- `audioBufferToWav` (App.tsx lines 138-177). -/
def audioBufferToWav (b : AudioBuffer) : Wav :=
  { view := wavView b, size := wavSize b }

/-- `processMidiWithSoundfont` (App.tsx lines 69-136): build the offline
context (2 channels, `ceil(duration × sampleRate)` frames — the platform
rejects a zero length with a `NotSupportedError`), post the optional
`loadSoundfont` message and the per-note messages, render (silence, since
the worklet writes nothing), and encode the rendered buffer as WAV. -/
def processMidiWithSoundfont (m : Midi) (soundfont : Option (List ℕ))
    (ctxSampleRate : ℕ) : Except String Wav :=
  let frames := totalFrames m ctxSampleRate
  if frames = 0 then Except.error "NotSupportedError"
  else
    let msgs :=
      (match soundfont with
        | some data => [Msg.loadSoundfont data]
        | none => []) ++ scheduleMessages m
    Except.ok (audioBufferToWav (renderedBuffer msgs frames ctxSampleRate))

/-- The byte content of the successful render result (`fun _ => 0` when the
render failed). -/
def renderedView (m : Midi) (soundfont : Option (List ℕ)) (sr : ℕ) : ℕ → ℕ :=
  match processMidiWithSoundfont m soundfont sr with
  | Except.ok w => w.view
  | Except.error _ => fun _ => 0

/-- Little-endian uint16 read-back of two bytes of a view. -/
def readUint16LE (v : ℕ → ℕ) (o : ℕ) : ℕ :=
  v o + 256 * v (o + 1)

/-- Little-endian uint32 read-back of four bytes of a view. -/
def readUint32LE (v : ℕ → ℕ) (o : ℕ) : ℕ :=
  v o + 256 * v (o + 1) + 65536 * v (o + 2) + 16777216 * v (o + 3)

/-- Little-endian two's-complement int16 read-back of two bytes of a view. -/
def readInt16LE (v : ℕ → ℕ) (o : ℕ) : ℤ :=
  if readUint16LE v o < 32768 then (readUint16LE v o : ℤ)
  else (readUint16LE v o : ℤ) - 65536

/-! ## Concrete inputs used by counterexamples and witnesses -/

/-- The §8 scenario input: one track, one note A4 (pitch 69), velocity 1,
start 0, duration 1 second. -/
def singleA4Midi : Midi := ⟨[⟨[⟨69, 1, 0, 1⟩]⟩]⟩

/-- A timeline with zero note events. -/
def emptyMidi : Midi := ⟨[]⟩

/-- One track whose two non-overlapping notes are stored in reverse start
time order (start times 1 then 0). -/
def unsortedMidi : Midi := ⟨[⟨[⟨60, 1, 1, 1⟩, ⟨62, 1, 0, 1⟩]⟩]⟩

/-- One track with a single zero-velocity note. -/
def zeroVelMidi : Midi := ⟨[⟨[⟨60, 0, 0, 1⟩]⟩]⟩

/-- A small concrete audio buffer: 8000 Hz, one channel, two frames. -/
def sampleBuffer : AudioBuffer := ⟨8000, 1, 2, [[1/2, -3/4]]⟩

/-! ## Byte-store machinery -/

lemma applyWrites_append (v : ℕ → ℕ) (l₁ l₂ : List (ℕ × ℕ)) :
    applyWrites v (l₁ ++ l₂) = applyWrites (applyWrites v l₁) l₂ := by
  induction l₁ generalizing v with
  | nil => rfl
  | cons w ws ih =>
      rw [List.cons_append, applyWrites, applyWrites]
      exact ih _

lemma applyWrites_eq_of_forall_ne (ws : List (ℕ × ℕ)) (v : ℕ → ℕ) (k : ℕ)
    (h : ∀ p ∈ ws, p.1 ≠ k) : applyWrites v ws k = v k := by
  induction ws generalizing v with
  | nil => rfl
  | cons w ws ih =>
      rw [applyWrites, ih _ (fun p hp => h p (List.mem_cons_of_mem _ hp))]
      have hne : k ≠ w.1 := fun hk => h w (List.mem_cons_self w ws) hk.symm
      simp [setByte, hne]

lemma applyWrites_eq_of_forall_imp (ws : List (ℕ × ℕ)) (v : ℕ → ℕ) (k b : ℕ)
    (hv : v k = b) (h : ∀ p ∈ ws, p.1 = k → p.2 = b) : applyWrites v ws k = b := by
  induction ws generalizing v with
  | nil => exact hv
  | cons w ws ih =>
      rw [applyWrites]
      refine ih _ ?_ (fun p hp => h p (List.mem_cons_of_mem _ hp))
      by_cases hk : k = w.1
      · simpa [setByte, hk] using h w (List.mem_cons_self _ _) hk.symm
      · simpa [setByte, hk] using hv

lemma applyWrites_eq_of_mem (ws : List (ℕ × ℕ)) (v : ℕ → ℕ) (k b : ℕ)
    (hmem : (k, b) ∈ ws) (h : ∀ p ∈ ws, p.1 = k → p.2 = b) :
    applyWrites v ws k = b := by
  induction ws generalizing v with
  | nil => cases hmem
  | cons w ws ih =>
      rw [applyWrites]
      rcases List.mem_cons.mp hmem with hw | hmem'
      · refine applyWrites_eq_of_forall_imp ws _ k b ?_
          (fun p hp => h p (List.mem_cons_of_mem _ hp))
        simp [← hw, setByte]
      · exact ih _ hmem' (fun p hp => h p (List.mem_cons_of_mem _ hp))

lemma headerWrites_fst (b : AudioBuffer) :
    (headerWrites b).map Prod.fst =
      [0, 1, 2, 3, 4, 5, 6, 7, 8, 9, 10, 11, 12, 13, 14, 15, 16, 17, 18, 19,
       20, 21, 22, 23, 24, 25, 26, 27, 28, 29, 30, 31, 32, 33, 34, 35, 36,
       37, 38, 39, 40, 41, 42, 43] := rfl

lemma headerWrites_idx_lt (b : AudioBuffer) : ∀ p ∈ headerWrites b, p.1 < 44 := by
  intro p hp
  have h1 : p.1 ∈ (headerWrites b).map Prod.fst := List.mem_map_of_mem _ hp
  rw [headerWrites_fst] at h1
  simp only [List.mem_cons, List.not_mem_nil, or_false] at h1
  omega

lemma dataWrites_idx_ge (b : AudioBuffer) : ∀ p ∈ dataWrites b, 44 ≤ p.1 := by
  intro p hp
  simp only [dataWrites, List.mem_flatMap, List.mem_range, int16LEwrites,
    List.mem_cons, List.not_mem_nil, or_false] at hp
  rcases hp with ⟨i, _, j, _, rfl | rfl⟩ <;> omega

lemma wavView_lt44 (b : AudioBuffer) (k : ℕ) (hk : k < 44) :
    wavView b k = applyWrites (fun _ => 0) (headerWrites b) k := by
  rw [wavView, applyWrites_append]
  exact applyWrites_eq_of_forall_ne _ _ _
    (fun p hp => by have := dataWrites_idx_ge b p hp; omega)

/-! ## Header field evaluation -/

lemma wavView_tag_riff (b : AudioBuffer) :
    wavView b 0 = 82 ∧ wavView b 1 = 73 ∧ wavView b 2 = 70 ∧ wavView b 3 = 70 := by
  refine ⟨?_, ?_, ?_, ?_⟩ <;>
  · rw [wavView_lt44 b _ (by norm_num)]
    simp [headerWrites, uint32LEwrites, uint16LEwrites, applyWrites, setByte]

lemma wavView_tag_wave (b : AudioBuffer) :
    wavView b 8 = 87 ∧ wavView b 9 = 65 ∧ wavView b 10 = 86 ∧ wavView b 11 = 69 := by
  refine ⟨?_, ?_, ?_, ?_⟩ <;>
  · rw [wavView_lt44 b _ (by norm_num)]
    simp [headerWrites, uint32LEwrites, uint16LEwrites, applyWrites, setByte]

lemma wavView_tag_fmt (b : AudioBuffer) :
    wavView b 12 = 102 ∧ wavView b 13 = 109 ∧ wavView b 14 = 116 ∧ wavView b 15 = 32 := by
  refine ⟨?_, ?_, ?_, ?_⟩ <;>
  · rw [wavView_lt44 b _ (by norm_num)]
    simp [headerWrites, uint32LEwrites, uint16LEwrites, applyWrites, setByte]

lemma wavView_tag_data (b : AudioBuffer) :
    wavView b 36 = 100 ∧ wavView b 37 = 97 ∧ wavView b 38 = 116 ∧ wavView b 39 = 97 := by
  refine ⟨?_, ?_, ?_, ?_⟩ <;>
  · rw [wavView_lt44 b _ (by norm_num)]
    simp [headerWrites, uint32LEwrites, uint16LEwrites, applyWrites, setByte]

lemma readUint32LE_wavView_4 (b : AudioBuffer) :
    readUint32LE (wavView b) 4 = (36 + dataLen b) % 4294967296 := by
  have h4 : wavView b 4 = (36 + dataLen b) % 256 := by
    rw [wavView_lt44 b 4 (by norm_num)]
    simp [headerWrites, uint32LEwrites, uint16LEwrites, applyWrites, setByte]
  have h5 : wavView b 5 = (36 + dataLen b) / 256 % 256 := by
    rw [wavView_lt44 b 5 (by norm_num)]
    simp [headerWrites, uint32LEwrites, uint16LEwrites, applyWrites, setByte]
  have h6 : wavView b 6 = (36 + dataLen b) / 65536 % 256 := by
    rw [wavView_lt44 b 6 (by norm_num)]
    simp [headerWrites, uint32LEwrites, uint16LEwrites, applyWrites, setByte]
  have h7 : wavView b 7 = (36 + dataLen b) / 16777216 % 256 := by
    rw [wavView_lt44 b 7 (by norm_num)]
    simp [headerWrites, uint32LEwrites, uint16LEwrites, applyWrites, setByte]
  rw [readUint32LE, h4, h5, h6, h7]
  omega

lemma readUint32LE_wavView_16 (b : AudioBuffer) :
    readUint32LE (wavView b) 16 = 16 := by
  have h16 : wavView b 16 = 16 := by
    rw [wavView_lt44 b 16 (by norm_num)]
    simp [headerWrites, uint32LEwrites, uint16LEwrites, applyWrites, setByte]
  have h17 : wavView b 17 = 0 := by
    rw [wavView_lt44 b 17 (by norm_num)]
    simp [headerWrites, uint32LEwrites, uint16LEwrites, applyWrites, setByte]
  have h18 : wavView b 18 = 0 := by
    rw [wavView_lt44 b 18 (by norm_num)]
    simp [headerWrites, uint32LEwrites, uint16LEwrites, applyWrites, setByte]
  have h19 : wavView b 19 = 0 := by
    rw [wavView_lt44 b 19 (by norm_num)]
    simp [headerWrites, uint32LEwrites, uint16LEwrites, applyWrites, setByte]
  rw [readUint32LE, h16, h17, h18, h19]

lemma readUint16LE_wavView_20 (b : AudioBuffer) :
    readUint16LE (wavView b) 20 = 1 := by
  have h20 : wavView b 20 = 1 := by
    rw [wavView_lt44 b 20 (by norm_num)]
    simp [headerWrites, uint32LEwrites, uint16LEwrites, applyWrites, setByte]
  have h21 : wavView b 21 = 0 := by
    rw [wavView_lt44 b 21 (by norm_num)]
    simp [headerWrites, uint32LEwrites, uint16LEwrites, applyWrites, setByte]
  rw [readUint16LE, h20, h21]

lemma readUint16LE_wavView_22 (b : AudioBuffer) :
    readUint16LE (wavView b) 22 = b.numberOfChannels % 65536 := by
  have h22 : wavView b 22 = b.numberOfChannels % 256 := by
    rw [wavView_lt44 b 22 (by norm_num)]
    simp [headerWrites, uint32LEwrites, uint16LEwrites, applyWrites, setByte]
  have h23 : wavView b 23 = b.numberOfChannels / 256 % 256 := by
    rw [wavView_lt44 b 23 (by norm_num)]
    simp [headerWrites, uint32LEwrites, uint16LEwrites, applyWrites, setByte]
  rw [readUint16LE, h22, h23]
  omega

lemma readUint32LE_wavView_24 (b : AudioBuffer) :
    readUint32LE (wavView b) 24 = b.sampleRate % 4294967296 := by
  have h24 : wavView b 24 = b.sampleRate % 256 := by
    rw [wavView_lt44 b 24 (by norm_num)]
    simp [headerWrites, uint32LEwrites, uint16LEwrites, applyWrites, setByte]
  have h25 : wavView b 25 = b.sampleRate / 256 % 256 := by
    rw [wavView_lt44 b 25 (by norm_num)]
    simp [headerWrites, uint32LEwrites, uint16LEwrites, applyWrites, setByte]
  have h26 : wavView b 26 = b.sampleRate / 65536 % 256 := by
    rw [wavView_lt44 b 26 (by norm_num)]
    simp [headerWrites, uint32LEwrites, uint16LEwrites, applyWrites, setByte]
  have h27 : wavView b 27 = b.sampleRate / 16777216 % 256 := by
    rw [wavView_lt44 b 27 (by norm_num)]
    simp [headerWrites, uint32LEwrites, uint16LEwrites, applyWrites, setByte]
  rw [readUint32LE, h24, h25, h26, h27]
  omega

lemma readUint32LE_wavView_28 (b : AudioBuffer) :
    readUint32LE (wavView b) 28 = b.sampleRate * b.numberOfChannels * 2 % 4294967296 := by
  have h28 : wavView b 28 = b.sampleRate * b.numberOfChannels * 2 % 256 := by
    rw [wavView_lt44 b 28 (by norm_num)]
    simp [headerWrites, uint32LEwrites, uint16LEwrites, applyWrites, setByte]
  have h29 : wavView b 29 = b.sampleRate * b.numberOfChannels * 2 / 256 % 256 := by
    rw [wavView_lt44 b 29 (by norm_num)]
    simp [headerWrites, uint32LEwrites, uint16LEwrites, applyWrites, setByte]
  have h30 : wavView b 30 = b.sampleRate * b.numberOfChannels * 2 / 65536 % 256 := by
    rw [wavView_lt44 b 30 (by norm_num)]
    simp [headerWrites, uint32LEwrites, uint16LEwrites, applyWrites, setByte]
  have h31 : wavView b 31 = b.sampleRate * b.numberOfChannels * 2 / 16777216 % 256 := by
    rw [wavView_lt44 b 31 (by norm_num)]
    simp [headerWrites, uint32LEwrites, uint16LEwrites, applyWrites, setByte]
  rw [readUint32LE, h28, h29, h30, h31]
  omega

lemma readUint16LE_wavView_32 (b : AudioBuffer) :
    readUint16LE (wavView b) 32 = b.numberOfChannels * 2 % 65536 := by
  have h32 : wavView b 32 = b.numberOfChannels * 2 % 256 := by
    rw [wavView_lt44 b 32 (by norm_num)]
    simp [headerWrites, uint32LEwrites, uint16LEwrites, applyWrites, setByte]
  have h33 : wavView b 33 = b.numberOfChannels * 2 / 256 % 256 := by
    rw [wavView_lt44 b 33 (by norm_num)]
    simp [headerWrites, uint32LEwrites, uint16LEwrites, applyWrites, setByte]
  rw [readUint16LE, h32, h33]
  omega

lemma readUint16LE_wavView_34 (b : AudioBuffer) :
    readUint16LE (wavView b) 34 = 16 := by
  have h34 : wavView b 34 = 16 := by
    rw [wavView_lt44 b 34 (by norm_num)]
    simp [headerWrites, uint32LEwrites, uint16LEwrites, applyWrites, setByte]
  have h35 : wavView b 35 = 0 := by
    rw [wavView_lt44 b 35 (by norm_num)]
    simp [headerWrites, uint32LEwrites, uint16LEwrites, applyWrites, setByte]
  rw [readUint16LE, h34, h35]

lemma readUint32LE_wavView_40 (b : AudioBuffer) :
    readUint32LE (wavView b) 40 = dataLen b % 4294967296 := by
  have h40 : wavView b 40 = dataLen b % 256 := by
    rw [wavView_lt44 b 40 (by norm_num)]
    simp [headerWrites, uint32LEwrites, uint16LEwrites, applyWrites, setByte]
  have h41 : wavView b 41 = dataLen b / 256 % 256 := by
    rw [wavView_lt44 b 41 (by norm_num)]
    simp [headerWrites, uint32LEwrites, uint16LEwrites, applyWrites, setByte]
  have h42 : wavView b 42 = dataLen b / 65536 % 256 := by
    rw [wavView_lt44 b 42 (by norm_num)]
    simp [headerWrites, uint32LEwrites, uint16LEwrites, applyWrites, setByte]
  have h43 : wavView b 43 = dataLen b / 16777216 % 256 := by
    rw [wavView_lt44 b 43 (by norm_num)]
    simp [headerWrites, uint32LEwrites, uint16LEwrites, applyWrites, setByte]
  rw [readUint32LE, h40, h41, h42, h43]
  omega


/-! ## Quantization bounds -/

lemma clampSample_mem (s : ℚ) : -1 ≤ clampSample s ∧ clampSample s ≤ 1 :=
  ⟨le_max_left _ _, max_le (by norm_num) (min_le_left _ _)⟩

lemma quantizeSample_range (s : ℚ) :
    -32768 ≤ quantizeSample s ∧ quantizeSample s ≤ 32767 := by
  obtain ⟨h1, h2⟩ := clampSample_mem s
  rw [quantizeSample]
  split_ifs with hneg
  · have hx : clampSample s * 32768 < 0 :=
      mul_neg_of_neg_of_pos hneg (by norm_num)
    rw [ratTrunc, if_pos hx]
    constructor
    · have hle : ((-32768 : ℤ) : ℚ) ≤ clampSample s * 32768 := by
        push_cast
        nlinarith
      simpa using Int.ceil_le_ceil hle
    · have : ⌈clampSample s * 32768⌉ ≤ 0 :=
        Int.ceil_le.mpr (by push_cast; exact le_of_lt hx)
      omega
  · have hx : ¬ clampSample s * 32767 < 0 := by
      push_neg
      exact mul_nonneg (not_lt.mp hneg) (by norm_num)
    rw [ratTrunc, if_neg hx]
    constructor
    · have : (0 : ℤ) ≤ ⌊clampSample s * 32767⌋ := by
        rw [not_lt] at hx
        exact Int.floor_nonneg.mpr hx
      omega
    · have hle : clampSample s * 32767 ≤ ((32767 : ℤ) : ℚ) := by
        push_cast
        nlinarith
      simpa using Int.floor_le_floor hle

lemma quantizeSample_zero : quantizeSample 0 = 0 := by
  have hc : clampSample 0 = 0 := by norm_num [clampSample]
  rw [quantizeSample, hc]
  norm_num [ratTrunc]

/-! ## The data region of the encoded WAV -/

lemma interleaved_index_inj {ch i i' j j' : ℕ} (hi : i < ch) (hi' : i' < ch)
    (h : j * ch + i = j' * ch + i') : i = i' ∧ j = j' := by
  have hch : 0 < ch := Nat.lt_of_le_of_lt (Nat.zero_le i) hi
  have key : ∀ a c : ℕ, (a * ch + c) % ch = c % ch := fun a c => by
    rw [Nat.mul_comm, Nat.mul_add_mod]
  have h1 : i = i' := by
    have hmod := congrArg (· % ch) h
    simp only [key] at hmod
    rwa [Nat.mod_eq_of_lt hi, Nat.mod_eq_of_lt hi'] at hmod
  subst h1
  have h2 : j * ch = j' * ch := by omega
  exact ⟨rfl, Nat.eq_of_mul_eq_mul_right hch h2⟩

lemma wavView_data_bytes (b : AudioBuffer) (i j : ℕ) (hi : i < b.numberOfChannels)
    (hj : j < (b.getChannelData i).length) :
    wavView b (44 + (j * b.numberOfChannels + i) * 2)
        = ((quantizeSample ((b.getChannelData i).getD j 0)) % 65536).toNat % 256 ∧
    wavView b (44 + (j * b.numberOfChannels + i) * 2 + 1)
        = ((quantizeSample ((b.getChannelData i).getD j 0)) % 65536).toNat / 256 % 256 := by
  have huniq_lo : ∀ p ∈ dataWrites b, p.1 = 44 + (j * b.numberOfChannels + i) * 2 →
      p.2 = ((quantizeSample ((b.getChannelData i).getD j 0)) % 65536).toNat % 256 := by
    intro p hp hpk
    simp only [dataWrites, List.mem_flatMap, List.mem_range, int16LEwrites,
      List.mem_cons, List.not_mem_nil, or_false] at hp
    rcases hp with ⟨i', hi', j', hj', rfl | rfl⟩
    · simp only at hpk ⊢
      have heq : j' * b.numberOfChannels + i' = j * b.numberOfChannels + i := by omega
      obtain ⟨rfl, rfl⟩ := interleaved_index_inj hi' hi heq
      rfl
    · simp only at hpk
      omega
  have huniq_hi : ∀ p ∈ dataWrites b, p.1 = 44 + (j * b.numberOfChannels + i) * 2 + 1 →
      p.2 = ((quantizeSample ((b.getChannelData i).getD j 0)) % 65536).toNat / 256 % 256 := by
    intro p hp hpk
    simp only [dataWrites, List.mem_flatMap, List.mem_range, int16LEwrites,
      List.mem_cons, List.not_mem_nil, or_false] at hp
    rcases hp with ⟨i', hi', j', hj', rfl | rfl⟩
    · simp only at hpk
      omega
    · simp only at hpk ⊢
      have heq : j' * b.numberOfChannels + i' = j * b.numberOfChannels + i := by omega
      obtain ⟨rfl, rfl⟩ := interleaved_index_inj hi' hi heq
      rfl
  have hmem_lo : (44 + (j * b.numberOfChannels + i) * 2,
      ((quantizeSample ((b.getChannelData i).getD j 0)) % 65536).toNat % 256) ∈ dataWrites b := by
    simp only [dataWrites, List.mem_flatMap, List.mem_range, int16LEwrites,
      List.mem_cons, List.not_mem_nil, or_false]
    exact ⟨i, hi, j, hj, Or.inl rfl⟩
  have hmem_hi : (44 + (j * b.numberOfChannels + i) * 2 + 1,
      ((quantizeSample ((b.getChannelData i).getD j 0)) % 65536).toNat / 256 % 256) ∈ dataWrites b := by
    simp only [dataWrites, List.mem_flatMap, List.mem_range, int16LEwrites,
      List.mem_cons, List.not_mem_nil, or_false]
    exact ⟨i, hi, j, hj, Or.inr rfl⟩
  constructor
  · rw [wavView, applyWrites_append]
    exact applyWrites_eq_of_mem _ _ _ _ hmem_lo huniq_lo
  · rw [wavView, applyWrites_append]
    exact applyWrites_eq_of_mem _ _ _ _ hmem_hi huniq_hi

lemma readInt16LE_of_bytes (v : ℕ → ℕ) (o : ℕ) (q : ℤ)
    (h1 : -32768 ≤ q) (h2 : q ≤ 32767)
    (hlo : v o = (q % 65536).toNat % 256)
    (hhi : v (o + 1) = (q % 65536).toNat / 256 % 256) :
    readInt16LE v o = q := by
  simp only [readInt16LE, readUint16LE, hlo, hhi]
  split_ifs with h <;> omega

/-- The interleaved-sample clause of the container layout: the 16-bit
signed little-endian value stored for channel `i`, frame `j` decodes to
exactly the quantized sample. -/
lemma readInt16LE_wavView (b : AudioBuffer) (i j : ℕ)
    (hi : i < b.numberOfChannels) (hj : j < (b.getChannelData i).length) :
    readInt16LE (wavView b) (44 + (j * b.numberOfChannels + i) * 2)
      = quantizeSample ((b.getChannelData i).getD j 0) := by
  obtain ⟨hlo, hhi⟩ := wavView_data_bytes b i j hi hj
  obtain ⟨hq1, hq2⟩ := quantizeSample_range ((b.getChannelData i).getD j 0)
  exact readInt16LE_of_bytes _ _ _ hq1 hq2 hlo hhi

/-! ## Timeline duration -/

lemma foldr_max_nonneg (l : List ℚ) : 0 ≤ l.foldr max 0 := by
  induction l with
  | nil => exact le_refl 0
  | cons a l ih => exact le_trans ih (le_max_right a _)

lemma le_foldr_max (l : List ℚ) (a : ℚ) (h : a ∈ l) : a ≤ l.foldr max 0 := by
  induction l with
  | nil => cases h
  | cons x l ih =>
      rcases List.mem_cons.mp h with rfl | h'
      · exact le_max_left _ _
      · exact le_trans (ih h') (le_max_right _ _)

lemma foldr_max_le (l : List ℚ) (c : ℚ) (h0 : 0 ≤ c) (h : ∀ a ∈ l, a ≤ c) :
    l.foldr max 0 ≤ c := by
  induction l with
  | nil => exact h0
  | cons x l ih =>
      exact max_le (h x (List.mem_cons_self _ _))
        (ih fun a ha => h a (List.mem_cons_of_mem _ ha))

lemma foldr_max_append (l₁ l₂ : List ℚ) :
    (l₁ ++ l₂).foldr max 0 = max (l₁.foldr max 0) (l₂.foldr max 0) := by
  induction l₁ with
  | nil => simp [max_eq_right (foldr_max_nonneg l₂)]
  | cons x l ih => simp [List.foldr_cons, ih, max_assoc]

lemma foldr_max_perm (l₁ l₂ : List ℚ) (h : List.Perm l₁ l₂) :
    l₁.foldr max 0 = l₂.foldr max 0 :=
  le_antisymm
    (foldr_max_le _ _ (foldr_max_nonneg _) fun a ha => le_foldr_max _ _ (h.mem_iff.mp ha))
    (foldr_max_le _ _ (foldr_max_nonneg _) fun a ha => le_foldr_max _ _ (h.mem_iff.mpr ha))

lemma foldr_max_mem (l : List ℚ) (hne : l ≠ []) (hnn : ∀ a ∈ l, 0 ≤ a) :
    l.foldr max 0 ∈ l := by
  induction l with
  | nil => exact absurd rfl hne
  | cons x l ih =>
      rcases eq_or_ne l [] with rfl | hl
      · have hx : 0 ≤ x := hnn x (List.mem_cons_self _ _)
        simp [max_eq_left hx]
      · rcases le_total x (l.foldr max 0) with hle | hle
        · have hmem := ih hl (fun a ha => hnn a (List.mem_cons_of_mem _ ha))
          rw [List.foldr_cons, max_eq_right hle]
          exact List.mem_cons_of_mem _ hmem
        · rw [List.foldr_cons, max_eq_left hle]
          exact List.mem_cons_self _ _

/-- The maximum event end time of a timeline (`0` if it has no events):
the quantity the spec calls `maxEndTime`. -/
def maxEndTime (m : Midi) : ℚ :=
  (m.events.map fun n => n.time + n.duration).foldr max 0

/-- The external library's `midi.duration` (maximum of per-track maxima)
agrees with the flat maximum over all events. -/
lemma Midi.duration_eq_maxEndTime (m : Midi) : m.duration = maxEndTime m := by
  rcases m with ⟨tracks⟩
  induction tracks with
  | nil => rfl
  | cons t ts ih =>
      simp only [Midi.duration, maxEndTime, Midi.events, List.map_cons,
        List.foldr_cons, List.flatMap_cons, List.map_append,
        foldr_max_append] at ih ⊢
      rw [ih, Track.duration]

lemma Midi.duration_perm {m₁ m₂ : Midi} (h : List.Perm m₁.events m₂.events) :
    m₁.duration = m₂.duration := by
  rw [Midi.duration_eq_maxEndTime, Midi.duration_eq_maxEndTime]
  exact foldr_max_perm _ _ (h.map _)

lemma totalFrames_perm {m₁ m₂ : Midi} (sr : ℕ)
    (h : List.Perm m₁.events m₂.events) :
    totalFrames m₁ sr = totalFrames m₂ sr := by
  rw [totalFrames, totalFrames, Midi.duration_perm h]

lemma Midi.duration_of_events_nil (m : Midi) (h : m.events = []) :
    m.duration = 0 := by
  rw [Midi.duration_eq_maxEndTime, maxEndTime, h]
  rfl

lemma totalFrames_of_events_nil (m : Midi) (sr : ℕ) (h : m.events = []) :
    totalFrames m sr = 0 := by
  rw [totalFrames, Midi.duration_of_events_nil m h]
  simp

/-! ## Silence of the rendered buffer -/

lemma getD_replicate {α : Type} (n i : ℕ) (a d : α) :
    (List.replicate n a).getD i d = if i < n then a else d := by
  induction n generalizing i with
  | zero => simp
  | succ n ih =>
      cases i with
      | zero => rw [List.replicate_succ, List.getD_cons_zero, if_pos (Nat.succ_pos n)]
      | succ i =>
          rw [List.replicate_succ, List.getD_cons_succ, ih i]
          by_cases h : i < n
          · rw [if_pos h, if_pos (Nat.succ_lt_succ h)]
          · rw [if_neg h, if_neg (fun hc => h (Nat.lt_of_succ_lt_succ hc))]

lemma renderedBuffer_getChannelData (msgs : List Msg) (f sr : ℕ) (i : ℕ)
    (hi : i < 2) :
    (renderedBuffer msgs f sr).getChannelData i = List.replicate f 0 := by
  match i, hi with
  | 0, _ => rfl
  | 1, _ => rfl

lemma dataWrites_renderedBuffer_zero (msgs : List Msg) (f sr : ℕ) :
    ∀ p ∈ dataWrites (renderedBuffer msgs f sr), p.2 = 0 := by
  intro p hp
  simp only [dataWrites, List.mem_flatMap, List.mem_range, int16LEwrites,
    List.mem_cons, List.not_mem_nil, or_false] at hp
  rcases hp with ⟨i, hi, j, hj, rfl | rfl⟩ <;>
  · simp [renderedBuffer_getChannelData msgs f sr i hi, getD_replicate,
      quantizeSample_zero]

lemma wavView_silent (msgs : List Msg) (f sr : ℕ) (k : ℕ) (hk : 44 ≤ k) :
    wavView (renderedBuffer msgs f sr) k = 0 := by
  rw [wavView, applyWrites_append]
  refine applyWrites_eq_of_forall_imp _ _ _ _ ?_ ?_
  · exact applyWrites_eq_of_forall_ne _ _ _
      (fun p hp => by have := headerWrites_idx_lt _ p hp; omega)
  · intro p hp _
    exact dataWrites_renderedBuffer_zero msgs f sr p hp

/-! ## Evaluation at the concrete scenario inputs -/

lemma totalFrames_singleA4 : totalFrames singleA4Midi 44100 = 44100 := by
  norm_num [totalFrames, Midi.duration, Track.duration, singleA4Midi]
  rfl

lemma process_singleA4 :
    processMidiWithSoundfont singleA4Midi none 44100
      = Except.ok (audioBufferToWav
          (renderedBuffer (scheduleMessages singleA4Midi) 44100 44100)) := by
  simp only [processMidiWithSoundfont, totalFrames_singleA4]
  rw [if_neg (by norm_num : ¬ (44100 = 0)), List.nil_append]

lemma renderedView_eq_of_ok (m : Midi) (soundfont : Option (List ℕ)) (sr : ℕ)
    (w : Wav) (h : processMidiWithSoundfont m soundfont sr = Except.ok w) :
    renderedView m soundfont sr = w.view := by
  rw [renderedView, h]

lemma audioBufferToWav_view (b : AudioBuffer) :
    (audioBufferToWav b).view = wavView b := by
  rw [audioBufferToWav]

lemma renderedBuffer_length (msgs : List Msg) (f sr : ℕ) :
    (renderedBuffer msgs f sr).length = f := rfl

lemma renderedBuffer_numberOfChannels (msgs : List Msg) (f sr : ℕ) :
    (renderedBuffer msgs f sr).numberOfChannels = 2 := rfl

lemma renderedBuffer_channelData (msgs : List Msg) (f sr : ℕ) :
    (renderedBuffer msgs f sr).channelData
      = List.replicate 2 (List.replicate f 0) := rfl

lemma renderedView_singleA4 :
    renderedView singleA4Midi none 44100
      = wavView (renderedBuffer (scheduleMessages singleA4Midi) 44100 44100) := by
  rw [renderedView_eq_of_ok _ _ _ _ process_singleA4, audioBufferToWav_view]

lemma totalFrames_zeroVel : totalFrames zeroVelMidi 44100 = 44100 := by
  norm_num [totalFrames, Midi.duration, Track.duration, zeroVelMidi]
  rfl

/-! ## The claims -/

/-- Claim C1: for every input buffer, sample rate and channel count,
`audioBufferToWav` writes the 44-byte little-endian header with exactly the
§6 fields — bytes 0-3 "RIFF", 4-7 uint32 36+dataLength, 8-11 "WAVE", 12-15
"fmt ", 16-19 uint32 16, 20-21 uint16 1 (PCM), 22-23 uint16 channel count,
24-27 uint32 sample rate, 28-31 uint32 sampleRate*channels*2, 32-33 uint16
channels*2, 34-35 uint16 16, 36-39 "data", 40-43 uint32 data length —
followed by the interleaved 16-bit signed little-endian quantized samples
(the multi-byte fields carrying their value reduced modulo the field
width, which is what the uint32/uint16 stores denote). -/
theorem wav_header_layout (b : AudioBuffer) :
    (wavView b 0 = 82 ∧ wavView b 1 = 73 ∧ wavView b 2 = 70 ∧ wavView b 3 = 70) ∧
    readUint32LE (wavView b) 4 = (36 + dataLen b) % 4294967296 ∧
    (wavView b 8 = 87 ∧ wavView b 9 = 65 ∧ wavView b 10 = 86 ∧ wavView b 11 = 69) ∧
    (wavView b 12 = 102 ∧ wavView b 13 = 109 ∧ wavView b 14 = 116 ∧ wavView b 15 = 32) ∧
    readUint32LE (wavView b) 16 = 16 ∧
    readUint16LE (wavView b) 20 = 1 ∧
    readUint16LE (wavView b) 22 = b.numberOfChannels % 65536 ∧
    readUint32LE (wavView b) 24 = b.sampleRate % 4294967296 ∧
    readUint32LE (wavView b) 28 = b.sampleRate * b.numberOfChannels * 2 % 4294967296 ∧
    readUint16LE (wavView b) 32 = b.numberOfChannels * 2 % 65536 ∧
    readUint16LE (wavView b) 34 = 16 ∧
    (wavView b 36 = 100 ∧ wavView b 37 = 97 ∧ wavView b 38 = 116 ∧ wavView b 39 = 97) ∧
    readUint32LE (wavView b) 40 = dataLen b % 4294967296 ∧
    (∀ i j : ℕ, i < b.numberOfChannels → j < (b.getChannelData i).length →
      readInt16LE (wavView b) (44 + (j * b.numberOfChannels + i) * 2)
        = quantizeSample ((b.getChannelData i).getD j 0)) :=
  ⟨wavView_tag_riff b, readUint32LE_wavView_4 b, wavView_tag_wave b,
   wavView_tag_fmt b, readUint32LE_wavView_16 b, readUint16LE_wavView_20 b,
   readUint16LE_wavView_22 b, readUint32LE_wavView_24 b,
   readUint32LE_wavView_28 b, readUint16LE_wavView_32 b,
   readUint16LE_wavView_34 b, wavView_tag_data b, readUint32LE_wavView_40 b,
   fun i j hi hj => readInt16LE_wavView b i j hi hj⟩

/-- Witness for `wav_header_layout`: the interleaved-sample clause applied
to the concrete buffer `sampleBuffer` at channel 0, frame 1, with both
bounds discharged. -/
theorem wav_header_layout_witness :
    (0 < sampleBuffer.numberOfChannels ∧ 1 < (sampleBuffer.getChannelData 0).length) ∧
    readInt16LE (wavView sampleBuffer) (44 + (1 * sampleBuffer.numberOfChannels + 0) * 2)
      = quantizeSample ((sampleBuffer.getChannelData 0).getD 1 0) :=
  ⟨⟨by decide, by decide⟩,
   (wav_header_layout sampleBuffer).2.2.2.2.2.2.2.2.2.2.2.2.2 0 1 (by decide) (by decide)⟩

lemma clampSample_idem (s : ℚ) : clampSample (clampSample s) = clampSample s := by
  obtain ⟨h1, h2⟩ := clampSample_mem s
  rw [clampSample, min_eq_right h2, max_eq_right h1]

lemma quantizeSample_clamp_eq (s : ℚ) :
    quantizeSample s = quantizeSample (clampSample s) := by
  simp only [quantizeSample, clampSample_idem]

lemma quantizeSample_of_clamp_one (s : ℚ) (hc : clampSample s = 1) :
    quantizeSample s = 32767 := by
  simp only [quantizeSample, hc]
  rw [if_neg (by norm_num : ¬ (1 : ℚ) < 0), ratTrunc,
    if_neg (by norm_num : ¬ (1 : ℚ) * 32767 < 0),
    show ((1 : ℚ) * 32767) = ((32767 : ℤ) : ℚ) by norm_num, Int.floor_intCast]

lemma quantizeSample_of_clamp_neg_one (s : ℚ) (hc : clampSample s = -1) :
    quantizeSample s = -32768 := by
  simp only [quantizeSample, hc]
  rw [if_pos (by norm_num : (-1 : ℚ) < 0), ratTrunc,
    if_pos (by norm_num : (-1 : ℚ) * 32768 < 0),
    show ((-1 : ℚ) * 32768) = ((-32768 : ℤ) : ℚ) by norm_num, Int.ceil_intCast]

lemma clampSample_one : clampSample 1 = 1 := by norm_num [clampSample]

lemma clampSample_two : clampSample 2 = 1 := by norm_num [clampSample]

lemma clampSample_neg_one : clampSample (-1) = -1 := by norm_num [clampSample]

lemma clampSample_neg_two : clampSample (-2) = -1 := by norm_num [clampSample]

/-- Claim C2: the encoder clamps each float sample to [-1,1] first and then
quantizes to signed 16-bit, multiplying negative values by 32768 and
non-negative values by 32767; in particular 1.0 encodes to 32767, -1.0 to
-32768 and 0.0 to 0, and the quantized value always lies in the signed
16-bit range, so encoding a structurally valid buffer never overflows. -/
theorem quantization_clamps_then_scales :
    quantizeSample 1 = 32767 ∧ quantizeSample (-1) = -32768 ∧
    quantizeSample 0 = 0 ∧
    (∀ s : ℚ, quantizeSample s = quantizeSample (clampSample s)) ∧
    (∀ s : ℚ, -32768 ≤ quantizeSample s ∧ quantizeSample s ≤ 32767) :=
  ⟨quantizeSample_of_clamp_one 1 clampSample_one,
   quantizeSample_of_clamp_neg_one (-1) clampSample_neg_one,
   quantizeSample_zero,
   quantizeSample_clamp_eq,
   quantizeSample_range⟩

/-- Claim C9 counterexample: there is no buffer sample value whose encoded
16-bit value falls outside the signed 16-bit range — the source clamps at
App.tsx line 171 before the asymmetric scaling, contrary to the claim that
it scales without clamping. -/
theorem no_unclamped_quantization_overflow :
    ¬ ∃ s : ℚ, quantizeSample s < -32768 ∨ 32767 < quantizeSample s := by
  rintro ⟨s, h | h⟩ <;>
  · obtain ⟨h1, h2⟩ := quantizeSample_range s
    omega

/-- Claim C9 (amended): the source's 16-bit quantization clamps each sample
to [-1,1] (App.tsx line 171) before the asymmetric scaling, so for every
buffer sample value the scaled result lies inside the signed 16-bit range;
out-of-range inputs such as 2.0 and -2.0 saturate at the boundaries. -/
theorem quantization_clamps_before_scaling :
    (∀ s : ℚ, -32768 ≤ quantizeSample s ∧ quantizeSample s ≤ 32767) ∧
    quantizeSample 2 = 32767 ∧ quantizeSample (-2) = -32768 :=
  ⟨quantizeSample_range,
   quantizeSample_of_clamp_one 2 clampSample_two,
   quantizeSample_of_clamp_neg_one (-2) clampSample_neg_two⟩

/-- Claim C10 (implicit): the worklet processor's `process` method writes
nothing to its outputs and every message is ignored, so for every MIDI
timeline and soundfont input the rendered buffer is identically zero and
every byte of the encoded WAV after the 44-byte header equals 0. -/
theorem render_writes_silence (m : Midi) (soundfont : Option (List ℕ)) (sr : ℕ) :
    (∀ (msgs : List Msg) (ins outs : List (List ℚ)),
      (SoundfontProcessor.process msgs ins outs).1 = outs) ∧
    (∀ (msgs : List Msg) (f : ℕ), (renderedBuffer msgs f sr).channelData
      = List.replicate 2 (List.replicate f 0)) ∧
    (∀ w : Wav, processMidiWithSoundfont m soundfont sr = Except.ok w →
      ∀ k : ℕ, 44 ≤ k → w.view k = 0) := by
  refine ⟨fun _ _ _ => rfl, fun msgs f => renderedBuffer_channelData msgs f sr, ?_⟩
  intro w hw k hk
  simp only [processMidiWithSoundfont] at hw
  split_ifs at hw with h0
  rw [Except.ok.injEq] at hw
  rw [← hw, audioBufferToWav_view]
  exact wavView_silent _ _ _ k hk

/-- Witness for `render_writes_silence`: the concrete single-A4 render
succeeds, and byte 44 (the first data byte) of its output is 0. -/
theorem render_writes_silence_witness :
    processMidiWithSoundfont singleA4Midi none 44100
      = Except.ok (audioBufferToWav
          (renderedBuffer (scheduleMessages singleA4Midi) 44100 44100)) ∧
    (44 : ℕ) ≤ 44 ∧
    (audioBufferToWav (renderedBuffer (scheduleMessages singleA4Midi) 44100 44100)).view 44 = 0 :=
  ⟨process_singleA4, le_refl 44,
   (render_writes_silence singleA4Midi none 44100).2.2 _ process_singleA4 44 (le_refl 44)⟩

/-- Claim C3 counterexample: for the §8 single-A4 scenario, header bytes
22-23 of the rendered WAV decode to channel count 2, not 1 — the renderer
hard-codes two channels and takes no channel-count input. -/
theorem singleA4_header_channels_two :
    readUint16LE (renderedView singleA4Midi none 44100) 22 = 2 ∧ (2 : ℕ) ≠ 1 := by
  constructor
  · rw [renderedView_singleA4, readUint16LE_wavView_22,
      renderedBuffer_numberOfChannels]
  · decide

/-- Claim C3 (amended): for the single-A4 scenario input the output has
exactly 44100 frames, but the rendered signal is identically zero — the
code has no fallback oscillator, the worklet synthesizes nothing — and the
channel count is the hard-coded 2, so header bytes 22-23 hold 2, not 1. -/
theorem singleA4_render_silent_stereo :
    totalFrames singleA4Midi 44100 = 44100 ∧
    (renderedBuffer (scheduleMessages singleA4Midi) 44100 44100).length = 44100 ∧
    (renderedBuffer (scheduleMessages singleA4Midi) 44100 44100).channelData
      = List.replicate 2 (List.replicate 44100 (0 : ℚ)) ∧
    readUint16LE (renderedView singleA4Midi none 44100) 22 = 2 := by
  refine ⟨totalFrames_singleA4, renderedBuffer_length _ _ _,
    renderedBuffer_channelData _ _ _, ?_⟩
  rw [renderedView_singleA4, readUint16LE_wavView_22,
    renderedBuffer_numberOfChannels]

/-! ## Scheduling order and permutation invariance -/

/-- The start times of the noteOn messages, in posted order. -/
def noteOnTimes (msgs : List Msg) : List ℚ :=
  msgs.filterMap fun msg =>
    match msg with
    | Msg.noteOn _ _ t => some t
    | _ => none

/-- The `unsortedMidi` timeline with its two notes in start-time order. -/
def sortedMidi : Midi := ⟨[⟨[⟨62, 1, 0, 1⟩, ⟨60, 1, 1, 1⟩]⟩]⟩

lemma renderedBuffer_msgs_irrel (msgs₁ msgs₂ : List Msg) (f sr : ℕ) :
    renderedBuffer msgs₁ f sr = renderedBuffer msgs₂ f sr := rfl

lemma processMidi_eq_of_frames_eq (m₁ m₂ : Midi) (soundfont : Option (List ℕ))
    (sr : ℕ) (hf : totalFrames m₁ sr = totalFrames m₂ sr) :
    processMidiWithSoundfont m₁ soundfont sr
      = processMidiWithSoundfont m₂ soundfont sr := by
  simp only [processMidiWithSoundfont, hf]
  split_ifs with h
  · rfl
  · exact congrArg Except.ok
      (congrArg audioBufferToWav (renderedBuffer_msgs_irrel _ _ _ _))

/-- Claim C4 counterexample: for a track whose two (non-overlapping) notes
are stored with start times [1, 0], the scheduler posts the noteOn
messages in exactly that order — the flattened event sequence the renderer
processes is not sorted by startTime. -/
theorem schedule_not_sorted_by_startTime :
    noteOnTimes (scheduleMessages unsortedMidi) = [1, 0] ∧
    ¬ List.Sorted (· ≤ ·) (noteOnTimes (scheduleMessages unsortedMidi)) := by
  constructor
  · decide
  · decide

/-- Claim C4 (amended): the renderer posts note events deterministically in
original track/insertion order, without any sort; nevertheless permuting
the flattened events — whether or not they overlap — yields byte-identical
encoded output, because the output depends only on the timeline's maximal
end time. -/
theorem render_perm_invariant (m₁ m₂ : Midi) (soundfont : Option (List ℕ))
    (sr : ℕ) (h : List.Perm m₁.events m₂.events) :
    processMidiWithSoundfont m₁ soundfont sr
      = processMidiWithSoundfont m₂ soundfont sr :=
  processMidi_eq_of_frames_eq m₁ m₂ soundfont sr (totalFrames_perm sr h)

/-- Witness for `render_perm_invariant`: the out-of-order and sorted
versions of the two-note timeline are permutations of each other and render
to identical output. -/
theorem render_perm_invariant_witness :
    List.Perm unsortedMidi.events sortedMidi.events ∧
    processMidiWithSoundfont unsortedMidi none 44100
      = processMidiWithSoundfont sortedMidi none 44100 :=
  ⟨by decide, render_perm_invariant unsortedMidi sortedMidi none 44100 (by decide)⟩

/-- Claim C5 counterexample: rendering the empty timeline fails with the
platform's NotSupportedError (the zero-length OfflineAudioContext
constructor), which is not an EmptyTimeline rejection — the code contains
no empty-timeline check of its own. -/
theorem empty_timeline_error_is_platform :
    processMidiWithSoundfont emptyMidi none 44100
      = Except.error "NotSupportedError" ∧
    "NotSupportedError" ≠ "EmptyTimeline" := by
  constructor
  · have h0 : totalFrames emptyMidi 44100 = 0 :=
      totalFrames_of_events_nil _ _ rfl
    simp [processMidiWithSoundfont, h0]
  · decide

/-- Claim C5 (amended): for every timeline with zero note events (any
soundfont, any sample rate) the computed frame count is 0 and the render is
rejected — but by the platform's NotSupportedError thrown when the
zero-length OfflineAudioContext is constructed, before any output buffer
exists, not by an EmptyTimeline error of the code. -/
theorem empty_timeline_rejected (m : Midi) (soundfont : Option (List ℕ))
    (sr : ℕ) (h : m.events = []) :
    totalFrames m sr = 0 ∧
    processMidiWithSoundfont m soundfont sr
      = Except.error "NotSupportedError" := by
  have h0 := totalFrames_of_events_nil m sr h
  refine ⟨h0, ?_⟩
  simp [processMidiWithSoundfont, h0]

/-- Witness for `empty_timeline_rejected` at the concrete empty timeline. -/
theorem empty_timeline_rejected_witness :
    emptyMidi.events = [] ∧ totalFrames emptyMidi 44100 = 0 :=
  ⟨rfl, (empty_timeline_rejected emptyMidi none 44100 rfl).1⟩

/-- Claim C6 counterexample: the zero-velocity note is scheduled as an
ordinary noteOn message and rendering succeeds — no InvalidNote rejection
exists anywhere in the code. -/
theorem zero_velocity_note_scheduled :
    Msg.noteOn 60 0 0 ∈ scheduleMessages zeroVelMidi ∧
    (processMidiWithSoundfont zeroVelMidi none 44100).isOk = true := by
  refine ⟨by decide, ?_⟩
  simp only [processMidiWithSoundfont, totalFrames_zeroVel]
  rw [if_neg (by norm_num : ¬ (44100 = 0))]
  rfl

/-! ## Velocity irrelevance -/

/-- Replace every note's velocity in the timeline by `v`. -/
def mapVelocity (v : ℚ) (m : Midi) : Midi :=
  ⟨m.tracks.map fun t => ⟨t.notes.map fun n => { n with velocity := v }⟩⟩

lemma events_mapVelocity (v : ℚ) (m : Midi) :
    (mapVelocity v m).events
      = m.events.map fun n => { n with velocity := v } := by
  rcases m with ⟨tracks⟩
  rw [mapVelocity, Midi.events, Midi.events]
  induction tracks with
  | nil => rfl
  | cons t ts ih =>
      simp only [List.map_cons, List.flatMap_cons, List.map_append, ih]

lemma duration_mapVelocity (v : ℚ) (m : Midi) :
    (mapVelocity v m).duration = m.duration := by
  rw [Midi.duration_eq_maxEndTime, Midi.duration_eq_maxEndTime, maxEndTime,
    maxEndTime, events_mapVelocity, List.map_map]
  rfl

lemma totalFrames_mapVelocity (v : ℚ) (m : Midi) (sr : ℕ) :
    totalFrames (mapVelocity v m) sr = totalFrames m sr := by
  rw [totalFrames, totalFrames, duration_mapVelocity]

/-- Claim C6 (amended): the code performs no velocity validation — every
note, including one of velocity 0, has its noteOn and noteOff messages
posted unchanged (there is no InvalidNote error in the code) — and
velocity has no effect whatsoever on the rendered output: replacing all
velocities yields the identical encoded result. -/
theorem velocity_not_validated (m : Midi) (soundfont : Option (List ℕ))
    (sr : ℕ) (n : Note) (hn : n ∈ m.events) :
    Msg.noteOn n.midi n.velocity n.time ∈ scheduleMessages m ∧
    Msg.noteOff n.midi (n.time + n.duration) ∈ scheduleMessages m ∧
    (∀ v : ℚ, processMidiWithSoundfont (mapVelocity v m) soundfont sr
        = processMidiWithSoundfont m soundfont sr) := by
  rw [Midi.events] at hn
  rcases List.mem_flatMap.mp hn with ⟨t, ht, hnt⟩
  refine ⟨?_, ?_, ?_⟩
  · exact List.mem_flatMap.mpr
      ⟨t, ht, List.mem_flatMap.mpr ⟨n, hnt, List.mem_cons_self _ _⟩⟩
  · exact List.mem_flatMap.mpr
      ⟨t, ht, List.mem_flatMap.mpr
        ⟨n, hnt, List.mem_cons_of_mem _ (List.mem_cons_self _ _)⟩⟩
  · intro v
    exact processMidi_eq_of_frames_eq _ _ _ _ (totalFrames_mapVelocity v m sr)

/-- Witness for `velocity_not_validated` at the zero-velocity note of
`zeroVelMidi`. -/
theorem velocity_not_validated_witness :
    (⟨60, 0, 0, 1⟩ : Note) ∈ zeroVelMidi.events ∧
    Msg.noteOn 60 0 0 ∈ scheduleMessages zeroVelMidi :=
  ⟨by decide,
   (velocity_not_validated zeroVelMidi none 44100 ⟨60, 0, 0, 1⟩ (by decide)).1⟩

/-- Claim C7: for every timeline with at least one event (all end times
nonnegative, per the §3 data model), the rendered buffer's frame length
equals `ceil(maxEndTime × sampleRate)` where `maxEndTime` is the maximum
over all events of startTime+duration, and the length is invariant under
permuting the events of the input. -/
theorem buffer_length_eq_ceil_maxEnd (m : Midi) (sr : ℕ)
    (hne : m.events ≠ [])
    (hnn : ∀ n ∈ m.events, 0 ≤ n.time + n.duration) :
    (renderedBuffer (scheduleMessages m) (totalFrames m sr) sr).length
      = (⌈maxEndTime m * (sr : ℚ)⌉).toNat ∧
    maxEndTime m ∈ (m.events.map fun n => n.time + n.duration) ∧
    (∀ e ∈ (m.events.map fun n => n.time + n.duration), e ≤ maxEndTime m) ∧
    (∀ m₂ : Midi, List.Perm m.events m₂.events →
      (renderedBuffer (scheduleMessages m₂) (totalFrames m₂ sr) sr).length
        = (renderedBuffer (scheduleMessages m) (totalFrames m sr) sr).length) := by
  have hmape : ∀ a ∈ (m.events.map fun n => n.time + n.duration), 0 ≤ a := by
    intro a ha
    rcases List.mem_map.mp ha with ⟨n, hn, rfl⟩
    exact hnn n hn
  have hmapne : (m.events.map fun n => n.time + n.duration) ≠ [] := by
    intro hmap
    exact hne (List.map_eq_nil_iff.mp hmap)
  refine ⟨?_, ?_, ?_, ?_⟩
  · rw [renderedBuffer_length, totalFrames, Midi.duration_eq_maxEndTime]
  · exact foldr_max_mem _ hmapne hmape
  · intro e he
    exact le_foldr_max _ _ he
  · intro m₂ hp
    rw [renderedBuffer_length, renderedBuffer_length]
    exact totalFrames_perm sr hp.symm

lemma singleA4_events_nonneg :
    ∀ n ∈ singleA4Midi.events, 0 ≤ n.time + n.duration := by
  have hev : singleA4Midi.events = [⟨69, 1, 0, 1⟩] := rfl
  rw [hev]
  intro n hn
  rcases List.mem_singleton.mp hn with rfl
  norm_num

/-- Witness for `buffer_length_eq_ceil_maxEnd` at the single-A4 timeline. -/
theorem buffer_length_eq_ceil_maxEnd_witness :
    (singleA4Midi.events ≠ [] ∧
      ∀ n ∈ singleA4Midi.events, 0 ≤ n.time + n.duration) ∧
    (renderedBuffer (scheduleMessages singleA4Midi)
        (totalFrames singleA4Midi 44100) 44100).length
      = (⌈maxEndTime singleA4Midi * ((44100 : ℕ) : ℚ)⌉).toNat :=
  ⟨⟨by decide, singleA4_events_nonneg⟩,
   (buffer_length_eq_ceil_maxEnd singleA4Midi 44100 (by decide)
     singleA4_events_nonneg).1⟩

/-- Claim C8: decoding the encoded container's header fields — bytes 24-27
(uint32), 22-23 (uint16) and 40-43 (uint32) — recovers exactly the sample
rate, channel count and data length used to produce it, for every buffer
whose values fit the field widths (as every real AudioBuffer's do). -/
theorem wav_header_roundtrip (b : AudioBuffer)
    (hsr : b.sampleRate < 4294967296) (hch : b.numberOfChannels < 65536)
    (hlen : dataLen b < 4294967296) :
    readUint32LE (wavView b) 24 = b.sampleRate ∧
    readUint16LE (wavView b) 22 = b.numberOfChannels ∧
    readUint32LE (wavView b) 40 = dataLen b := by
  refine ⟨?_, ?_, ?_⟩
  · rw [readUint32LE_wavView_24, Nat.mod_eq_of_lt hsr]
  · rw [readUint16LE_wavView_22, Nat.mod_eq_of_lt hch]
  · rw [readUint32LE_wavView_40, Nat.mod_eq_of_lt hlen]

/-- Witness for `wav_header_roundtrip` at the concrete `sampleBuffer`. -/
theorem wav_header_roundtrip_witness :
    (sampleBuffer.sampleRate < 4294967296 ∧
      sampleBuffer.numberOfChannels < 65536 ∧
      dataLen sampleBuffer < 4294967296) ∧
    (readUint32LE (wavView sampleBuffer) 24 = sampleBuffer.sampleRate ∧
      readUint16LE (wavView sampleBuffer) 22 = sampleBuffer.numberOfChannels ∧
      readUint32LE (wavView sampleBuffer) 40 = dataLen sampleBuffer) :=
  ⟨⟨by decide, by decide, by decide⟩,
   wav_header_roundtrip sampleBuffer (by decide) (by decide) (by decide)⟩
